import Mathlib

set_option maxHeartbeats 1000000

/-!
Shallow embedding of `src/app.py` (an LLM-assisted web-scraping ETL pipeline).

Python strings are modelled as `List Char`.  The external collaborators
(the Firecrawl scraping backend, the Groq chat model, and the
langchain/pydantic parsing of LLM output against the `Listings` schema)
are modelled as oracle functions collected in an `Env` record; everything
the repository itself does (regex span match, cache-by-file-existence,
URL stamping, row reduction, error boundary, batch loop) is translated
directly from the source.  The filesystem is an association list from
path to file content; fetch / LLM / repair invocations are counted in a
`World` record so that cache-hit claims ("no new fetch", "no new LLM
call") are expressible.
-/

/-- Python `str`, modelled as a list of characters. -/
abbrev Str := List Char

/-- The character class `[a-zA-Z0-9]` of `url_to_filename` (app.py line 19). -/
def isAlnumA (c : Char) : Bool :=
  (decide ('a' ≤ c) && decide (c ≤ 'z'))
    || (decide ('A' ≤ c) && decide (c ≤ 'Z'))
    || (decide ('0' ≤ c) && decide (c ≤ '9'))

/-- Characters removed by Python `str.strip()` (whitespace). -/
def pySpace (c : Char) : Bool :=
  c == ' ' || c == '\t' || c == '\n' || c == '\r' || c == '\x0b' || c == '\x0c'

/-- Python `s.strip(chars)`: drop the characters satisfying `p` from both ends. -/
def pyStripOn (p : Char → Bool) (l : Str) : Str :=
  ((l.dropWhile p).reverse.dropWhile p).reverse

/-- app.py line 18-19: `re.sub(r'[^a-zA-Z0-9]', '_', url).strip('_')`.
`re.sub` with a single-character class replaces every matching character by
one underscore (it does not collapse runs); `strip('_')` then removes leading
and trailing underscores. -/
def url_to_filename (url : Str) : Str :=
  pyStripOn (fun c => c == '_') (url.map (fun c => if isAlnumA c then c else '_'))

/-- Python `str.strip()` with no argument. -/
def pyStrip (l : Str) : Str := pyStripOn pySpace l

/-- JSON-like Python values flowing through the pipeline: the structured data
produced by `extract_with_llm` and stored in the `.json` cache artifacts
consists only of strings, lists and string-keyed dicts (see the `ProductItem`
schema below), so these three shapes suffice. -/
inductive JVal where
  | s (v : Str)
  | arr (items : List JVal)
  | obj (fields : List (Str × JVal))

/-- Python exceptions that the modelled code can raise or observe.
`external` wraps exceptions raised inside the scraping / LLM backends
(transport failures), which are distinct exception classes from the
`ValueError`s raised by app.py itself. -/
inductive PyErr where
  | keyError (k : Str)
  | attrError (msg : Str)
  | valueError (msg : Str)
  | typeError (msg : Str)
  | ioError (msg : Str)
  | external (msg : Str)

/-- The ASCII apostrophe, written via its code point. -/
def quoteChar : Char := Char.ofNat 39

/-- Python `str(e)`.  For `KeyError`, `str` yields the repr of the missing
key, i.e. the key surrounded by single quotes. -/
def pyStr : PyErr → Str
  | .keyError k => quoteChar :: (k ++ [quoteChar])
  | .attrError m => m
  | .valueError m => m
  | .typeError m => m
  | .ioError m => m
  | .external m => m

def urlKey : Str := "url".data
def descKey : Str := "product_description".data
def linkKey : Str := "product_link".data
def itemsKey : Str := "items".data
def nameKey : Str := "product_name".data
def brandKey : Str := "brand".data
def flavorsKey : Str := "Flavors".data

/-- app.py lines 25-29: the pydantic `ProductItem` model (field names, not
aliases, are what `.dict()` emits). -/
structure ProductItem where
  product_name : Str
  product_link : Str
  brand : Str
  Flavors : List Str

/-- app.py lines 31-32: the pydantic `Listings` model. -/
structure Listings where
  items : List ProductItem

/-- `ProductItem.dict()`: pydantic v1 `.dict()` keys the output by field
name (`product_name`, `product_link`, `brand`, `Flavors`), in declaration
order. -/
def ProductItem.toDict (p : ProductItem) : List (Str × JVal) :=
  [(nameKey, .s p.product_name), (linkKey, .s p.product_link),
   (brandKey, .s p.brand), (flavorsKey, .arr (p.Flavors.map JVal.s))]

/-- `Listings.dict()`: a dict with the single key `items`. -/
def Listings.toDict (l : Listings) : JVal :=
  .obj [(itemsKey, .arr (l.items.map (fun p => JVal.obj p.toDict)))]

/-- First-match association lookup (Python dict indexing / our filesystem). -/
def lookupA {α : Type} : List (Str × α) → Str → Option α
  | [], _ => none
  | (k', v') :: rest, k => if k' = k then some v' else lookupA rest k

/-- Association update with Python dict-assignment semantics: replace the
value of an existing key in place, else append the new key at the end
(insertion order). -/
def setAssoc {α : Type} : List (Str × α) → Str → α → List (Str × α)
  | [], k, v => [(k, v)]
  | (k', v') :: rest, k, v =>
    if k' = k then (k', v) :: rest else (k', v') :: setAssoc rest k v

def notSubscriptableMsg : Str := "object is not subscriptable".data

/-- Python `v[k]` for a string key: a dict either yields the value or raises
`KeyError(k)`; lists and strings raise `TypeError` when indexed by a string. -/
def dictGet (v : JVal) (k : Str) : Except PyErr JVal :=
  match v with
  | .obj fields =>
    match lookupA fields k with
    | some x => .ok x
    | none => .error (.keyError k)
  | _ => .error (.typeError notSubscriptableMsg)

def noItemAssignMsg : Str := "object does not support item assignment".data

/-- Python `v[k] = x` for a string key: dicts are updated, everything else
raises `TypeError`. -/
def setKey (v : JVal) (k : Str) (x : JVal) : Except PyErr JVal :=
  match v with
  | .obj fields => .ok (.obj (setAssoc fields k x))
  | _ => .error (.typeError noItemAssignMsg)

/-- Python `for x in v`: lists yield their elements, dicts their keys,
strings their one-character substrings.  (All three `JVal` shapes are
iterable in Python, so this is total.) -/
def pyIter : JVal → List JVal
  | .arr xs => xs
  | .obj fields => fields.map (fun kv => JVal.s kv.fst)
  | .s cs => cs.map (fun c => JVal.s [c])

/-- One summary row `{url, product_description, product_link}`
(app.py lines 110-117 and 122-126). -/
def mkRow (u d l : JVal) : JVal :=
  .obj [(urlKey, u), (descKey, d), (linkKey, l)]

/-- The placeholder row returned when a URL's pipeline fails
(app.py lines 122-126). -/
def errorRow (url : Str) (e : PyErr) : JVal :=
  mkRow (.s url) (.s ("ERROR".data)) (.s (pyStr e))

/-- The shapes a result of `FirecrawlApp.scrape_url` can take, as far as
`scrape_markdown` (app.py lines 65-72) distinguishes them: an object
exposing a `markdown` attribute, a dict with or without a `markdown` key,
or anything else. -/
inductive ScrapeResult where
  | withAttr (md : Str)
  | dictWithKey (md : Str)
  | dictNoKey
  | other

/-- The external collaborators, as oracles.
`scrape` is `FirecrawlApp.scrape_url` (its `Except` error is a transport
failure raised inside the backend); `llm` maps the page text embedded in
the prompt to `response.content` of `chat.invoke`; `parse` is
`PydanticOutputParser.parse` (JSON decoding plus schema validation);
`fixParse` is `OutputFixingParser.parse` (the one automatic LLM repair
pass). -/
structure Env where
  scrape : Str → Except Str ScrapeResult
  llm : Str → Except PyErr Str
  parse : Str → Except PyErr Listings
  fixParse : Str → Except PyErr Listings

def noMarkdownMsg : Str := "No markdown found in scraped content.".data

/-- app.py lines 65-72: `scrape_markdown`.  `hasattr` is checked first,
then the dict shape; otherwise `ValueError("No markdown found in scraped
content.")` is raised.  A transport failure from the backend propagates
unmodified (as the backend's own exception class, modelled `.external`). -/
def scrape_markdown (env : Env) (url : Str) : Except PyErr Str :=
  match env.scrape url with
  | .error t => .error (.external t)
  | .ok r =>
    match r with
    | .withAttr md => .ok md
    | .dictWithKey md => .ok md
    | .dictNoKey => .error (.valueError noMarkdownMsg)
    | .other => .error (.valueError noMarkdownMsg)

/-- Contents of a file in the output directory.  `jsonF` holds the value
serialized by `json.dump` (which `json.load` inverts on these values, so
serialization is modelled structurally); `xlsxF` holds the row dicts given
to `pd.DataFrame(...).to_excel`. -/
inductive FileData where
  | text (s : Str)
  | jsonF (v : JVal)
  | xlsxF (rows : List JVal)

/-- The mutable state threaded through a run: the output-directory
filesystem plus counters of backend invocations (one `fetchCalls` per
`FirecrawlApp.scrape_url` call, one `llmCalls` per `chat.invoke`, one
`repairCalls` per `OutputFixingParser.parse`). -/
structure World where
  fs : List (Str × FileData)
  fetchCalls : Nat
  llmCalls : Nat
  repairCalls : Nat

def writeFile (w : World) (p : Str) (d : FileData) : World :=
  { w with fs := setAssoc w.fs p d }

def bumpFetch (w : World) : World := { w with fetchCalls := w.fetchCalls + 1 }

def bumpLlm (w : World) : World := { w with llmCalls := w.llmCalls + 1 }

def bumpRepair (w : World) : World := { w with repairCalls := w.repairCalls + 1 }

/-- The suffix of `s` starting at its first opening brace (`re.search`
anchors the match of a pattern starting with a literal at the earliest
such position). -/
def afterFirst : Str → Option Str
  | [] => none
  | c :: rest => if c = '{' then some (c :: rest) else afterFirst rest

/-- The prefix of `s` ending at its last closing brace, if any (the greedy
`.*` with `re.DOTALL` extends to the last possible closer, across
newlines). -/
def upToLastClose : Str → Option Str
  | [] => none
  | c :: rest =>
    match upToLastClose rest with
    | some t => some (c :: t)
    | none => if c = '}' then some [c] else none

/-- app.py line 51: `re.search(r'\x7b.*\x7d', raw_output, re.DOTALL)`:
the span from the first opening brace to the last closing brace after it,
`none` when no such span exists. -/
def firstBraceGreedy (s : Str) : Option Str :=
  match afterFirst s with
  | none => none
  | some t => upToLastClose t

/-- The message of the `AttributeError` raised by `.group()` on the `None`
returned by a failed `re.search` (its repr quotes the names). -/
def attrGroupMsg : Str :=
  quoteChar :: ("NoneType".data ++ [quoteChar] ++ " object has no attribute ".data
    ++ [quoteChar] ++ "group".data ++ [quoteChar])

def failPre : Str := "Failed to extract ListingInfo. Final error: ".data

def failMid : Str := "\nRaw Output:\n".data

/-- app.py line 61: the message of the `ValueError` raised when the repair
pass also fails.  It interpolates the repair failure and the raw LLM
output; the original first-pass failure is not part of it. -/
def extractFailMsg (finalErr : PyErr) (raw : Str) : Str :=
  failPre ++ (pyStr finalErr ++ (failMid ++ raw))

/-- app.py lines 51-53, the body of the first `try`: locate the brace
span (raising `AttributeError` on `None.group()` when there is none),
run `parser.parse` on the span, and return `parsed.dict()`. -/
def primaryParse (env : Env) (raw : Str) : Except PyErr JVal :=
  match firstBraceGreedy raw with
  | none => .error (.attrError attrGroupMsg)
  | some jsonStr =>
    match env.parse jsonStr with
    | .ok l => .ok (Listings.toDict l)
    | .error e => .error e

/-- app.py lines 36-61: `extract_with_llm`.  `chat.invoke` runs before the
`try`, so its failures propagate; the first `except` falls through to
`fixing_parser.parse` on the full raw output; if that also fails, a
`ValueError` carrying the final error and the raw output is raised. -/
def extract_with_llm (env : Env) (data : Str) (w : World) :
    Except PyErr JVal × World :=
  let w1 := bumpLlm w
  match env.llm data with
  | .error e => (.error e, w1)
  | .ok content =>
    let raw := pyStrip content
    match primaryParse env raw with
    | .ok d => (.ok d, w1)
    | .error _e =>
      let w2 := bumpRepair w1
      match env.fixParse raw with
      | .ok l => (.ok (Listings.toDict l), w2)
      | .error finalErr => (.error (.valueError (extractFailMsg finalErr raw)), w2)

/-- app.py lines 99-100: `item["url"] = url` for each item. -/
def stampItems : List JVal → Str → Except PyErr (List JVal)
  | [], _ => .ok []
  | it :: rest, url =>
    match setKey it urlKey (.s url) with
    | .error e => .error e
    | .ok it' =>
      match stampItems rest url with
      | .ok rs => .ok (it' :: rs)
      | .error e => .error e

/-- app.py lines 98-100: iterate `structured_data["items"]` and stamp the
source URL into every item; returns the updated structured data together
with the updated item list (the list that lines 104 and 107 then persist). -/
def stampStage (sd : JVal) (url : Str) : Except PyErr (JVal × List JVal) :=
  match sd with
  | .obj fields =>
    match lookupA fields itemsKey with
    | none => .error (.keyError itemsKey)
    | some v =>
      match stampItems (pyIter v) url with
      | .error e => .error e
      | .ok its => .ok (.obj (setAssoc fields itemsKey (.arr its)), its)
  | _ => .error (.typeError notSubscriptableMsg)

/-- app.py lines 110-117: the list comprehension building one
`{url, product_description, product_link}` row per item.  Note it reads
the key `product_description`, which the extraction schema never emits
(the schema field is `product_name`). -/
def rowsOf : List JVal → Except PyErr (List JVal)
  | [] => .ok []
  | it :: rest =>
    match dictGet it urlKey with
    | .error e => .error e
    | .ok u =>
      match dictGet it descKey with
      | .error e => .error e
      | .ok d =>
        match dictGet it linkKey with
        | .error e => .error e
        | .ok l =>
          match rowsOf rest with
          | .ok rs => .ok (mkRow u d l :: rs)
          | .error e => .error e

/-- The Reduce stage: `structured_data["items"]` indexed then iterated,
each item reduced to a row. -/
def reduceStage (sd : JVal) : Except PyErr (List JVal) :=
  match dictGet sd itemsKey with
  | .error e => .error e
  | .ok v => rowsOf (pyIter v)

def cannotReadMsg : Str := "could not decode file".data

/-- `open(path).read()` on a cached artifact.  Artifacts written at `.md`
paths by this program are always text; reading anything else is modelled
as a decode error. -/
def readText : FileData → Except PyErr Str
  | .text s => .ok s
  | _ => .error (.ioError cannotReadMsg)

/-- `json.load` on a cached artifact.  Artifacts written at `.json` paths
by this program always hold a serialized `JVal`; anything else is modelled
as a decode error. -/
def readJson : FileData → Except PyErr JVal
  | .jsonF v => .ok v
  | _ => .error (.valueError cannotReadMsg)

/-- `os.path.join` for the two-component joins used here. -/
def pathJoin (d f : Str) : Str :=
  match d with
  | [] => f
  | _ => if d.getLast? = some '/' then d ++ f else d ++ ('/' :: f)

def mdExt : Str := ".md".data

def jsonExt : Str := ".json".data

def xlsxExt : Str := ".xlsx".data

/-- app.py lines 81-118: the body of the `try` in `process_url` - the
RawFetch stage (cache-or-fetch of the markdown), the Extract stage
(cache-or-LLM extraction, URL stamping, persistence of `.json` and
`.xlsx`), and the Reduce stage.  Returns the rows or the first exception,
together with the world as left behind (files already written stay
written). -/
def processUrlBody (env : Env) (url rawPath jsonPath xlsxPath : Str)
    (w : World) : Except PyErr (List JVal) × World :=
  let s1 : Except PyErr Str × World :=
    match lookupA w.fs rawPath with
    | some fd => (readText fd, w)
    | none =>
      let wF := bumpFetch w
      match scrape_markdown env url with
      | .error e => (.error e, wF)
      | .ok md => (.ok md, writeFile wF rawPath (.text md))
  match s1.fst with
  | .error e => (.error e, s1.snd)
  | .ok rawData =>
    let s2 : Except PyErr JVal × World :=
      match lookupA s1.snd.fs jsonPath with
      | some fd => (readJson fd, s1.snd)
      | none =>
        let r := extract_with_llm env rawData s1.snd
        match r.fst with
        | .error e => (.error e, r.snd)
        | .ok sd =>
          match stampStage sd url with
          | .error e => (.error e, r.snd)
          | .ok sdIts =>
            (.ok sdIts.fst,
              writeFile (writeFile r.snd jsonPath (.jsonF sdIts.fst))
                xlsxPath (.xlsxF sdIts.snd))
    match s2.fst with
    | .error e => (.error e, s2.snd)
    | .ok sd => (reduceStage sd, s2.snd)

/-- app.py lines 75-126: `process_url`.  The paths are derived from the
normalized URL; the whole body runs under one `try`, and any exception is
converted at this boundary into a single placeholder row. -/
def process_url (env : Env) (outdir url : Str) (w : World) :
    List JVal × World :=
  let base := url_to_filename url
  let rawPath := pathJoin outdir (base ++ mdExt)
  let jsonPath := pathJoin outdir (base ++ jsonExt)
  let xlsxPath := pathJoin outdir (base ++ xlsxExt)
  let r := processUrlBody env url rawPath jsonPath xlsxPath w
  match r.fst with
  | .ok rows => (rows, r.snd)
  | .error e => ([errorRow url e], r.snd)

/-- app.py lines 134-136: the sequential loop accumulating
`all_results.extend(result)`. -/
def batchRows (env : Env) (outdir : Str) : List Str → World → List JVal × World
  | [], w => ([], w)
  | u :: rest, w =>
    let p := process_url env outdir u w
    let q := batchRows env outdir rest p.snd
    (p.fst ++ q.fst, q.snd)

/-- app.py lines 129-141: `run_batch` - process every URL in order, then
write the accumulated rows as the summary spreadsheet at `sumPath`
(overwriting whatever is there).  `ensure_output_dir` only creates the
directory, which the path-keyed filesystem model renders a no-op. -/
def run_batch (env : Env) (urls : List Str) (outdir sumPath : Str)
    (w : World) : World :=
  let p := batchRows env outdir urls w
  writeFile p.snd sumPath (.xlsxF p.fst)

/-- Specification-side description of the batch (from the spec's words):
the per-URL row sequences, one entry per URL in input order, each URL
processed against the world left by its predecessor.  `run_batch` is
compared against the concatenation of these. -/
def urlRowSeqs (env : Env) (outdir : Str) : List Str → World → List (List JVal)
  | [], _ => []
  | u :: rest, w =>
    let p := process_url env outdir u w
    p.fst :: urlRowSeqs env outdir rest p.snd

/-- Substring test (used to state what an error message carries). -/
def containsSub (needle : Str) : Str → Bool
  | [] => needle.isEmpty
  | c :: t => needle.isPrefixOf (c :: t) || containsSub needle t

/-- Two adjacent separators somewhere in the string. -/
def hasAdjSep : Str → Bool
  | c1 :: c2 :: rest => (c1 == '_' && c2 == '_') || hasAdjSep (c2 :: rest)
  | _ => false

/-- Neither the first nor the last character is a separator. -/
def sepFreeEdges (l : Str) : Bool :=
  (match l.head? with
   | some c => !(c == '_')
   | none => true)
  && (match l.getLast? with
      | some c => !(c == '_')
      | none => true)

/-- The empty initial world. -/
def w0 : World := ⟨[], 0, 0, 0⟩

def urlA : Str := "A".data

def urlB : Str := "B".data

def outDirC : Str := "output".data

def sumPathC : Str := "output/summary.xlsx".data

def mdA : Str := "mdA".data

/-- A raw LLM response that is exactly one brace-delimited span. -/
def respA : Str := '{' :: ('x' :: ['}'])

def netDownMsg : Str := "connection refused".data

def badParseMsg : Str := "could not parse".data

def itemA1 : ProductItem := ⟨"p one".data, "l1".data, "b".data, ["f".data]⟩

def itemA2 : ProductItem := ⟨"p two".data, "l2".data, "b".data, ["f".data]⟩

def listingA : Listings := ⟨[itemA1, itemA2]⟩

/-- Environment for the end-to-end scenario: URL A fetches fine and its
LLM response parses into a two-record listing on the first pass; URL B's
fetch raises a transport error inside the backend. -/
def envC1 : Env :=
  { scrape := fun u => if u = urlA then .ok (.withAttr mdA) else .error netDownMsg
    llm := fun d => if d = mdA then .ok respA else .error (.external badParseMsg)
    parse := fun j => if j = respA then .ok listingA else .error (.valueError badParseMsg)
    fixParse := fun _ => .error (.valueError badParseMsg) }

/-- The structured data written to `output/A.json` in that scenario: both
extracted records, URL-stamped (the `url` key is appended after the four
schema fields). -/
def stampedA : JVal :=
  .obj [(itemsKey, .arr [
    .obj (ProductItem.toDict itemA1 ++ [(urlKey, .s urlA)]),
    .obj (ProductItem.toDict itemA2 ++ [(urlKey, .s urlA)])])]

/-- Environment in which extraction succeeds with an empty listing. -/
def envC2 : Env :=
  { scrape := fun _ => .ok (.withAttr mdA)
    llm := fun _ => .ok respA
    parse := fun _ => .ok ⟨[]⟩
    fixParse := fun _ => .error (.valueError badParseMsg) }

def dataC6 : Str := "page".data

/-- A raw LLM response with no brace span at all. -/
def rawC6 : Str := "zzz".data

def fixErrMsgC6 : Str := "fix failed".data

/-- Environment in which the primary parse fails (no brace span) and the
repair pass fails as well. -/
def envC6 : Env :=
  { scrape := fun _ => .ok .other
    llm := fun d => if d = dataC6 then .ok rawC6 else .error (.external badParseMsg)
    parse := fun _ => .error (.valueError badParseMsg)
    fixParse := fun _ => .error (.valueError fixErrMsgC6) }

/-- The message of the error `extract_with_llm` raises in `envC6`. -/
def msgC6 : Str := extractFailMsg (.valueError fixErrMsgC6) rawC6

/-- Backend returning a dict without a markdown key. -/
def envS1 : Env :=
  { scrape := fun _ => .ok .dictNoKey
    llm := fun _ => .error (.external badParseMsg)
    parse := fun _ => .error (.valueError badParseMsg)
    fixParse := fun _ => .error (.valueError badParseMsg) }

/-- Backend returning an object with a markdown attribute. -/
def envS2 : Env :=
  { scrape := fun _ => .ok (.withAttr mdA)
    llm := fun _ => .error (.external badParseMsg)
    parse := fun _ => .error (.valueError badParseMsg)
    fixParse := fun _ => .error (.valueError badParseMsg) }

/-- Backend whose transport fails outright. -/
def envS3 : Env :=
  { scrape := fun _ => .error netDownMsg
    llm := fun _ => .error (.external badParseMsg)
    parse := fun _ => .error (.valueError badParseMsg)
    fixParse := fun _ => .error (.valueError badParseMsg) }

/-- A cached structured-data value. -/
def cachedV : JVal := .obj [(itemsKey, .arr [])]

/-- A world in which both of URL A's cache artifacts already exist. -/
def wCached : World :=
  ⟨[("output/A.md".data, .text mdA), ("output/A.json".data, .jsonF cachedV)], 3, 4, 5⟩

/-- A world with the structured-data artifact but no raw-text artifact. -/
def wNoRaw : World := ⟨[("output/A.json".data, .jsonF cachedV)], 3, 4, 5⟩

/-! ### Helper lemmas -/

theorem head?_dropWhile_false (p : Char → Bool) (l : Str) (c : Char)
    (h : (l.dropWhile p).head? = some c) : p c = false := by
  have hm := List.head?_dropWhile_not p l
  rw [h] at hm
  exact hm

theorem pyStripOn_decomp (p : Char → Bool) (l : Str) :
    ∃ t, l.dropWhile p = pyStripOn p l ++ t := by
  rcases List.dropWhile_suffix (l := (l.dropWhile p).reverse) p with ⟨t, ht⟩
  refine ⟨t.reverse, ?_⟩
  have := congrArg List.reverse ht
  simpa [pyStripOn, List.reverse_append] using this.symm

theorem pyStripOn_head (p : Char → Bool) (l : Str) (c : Char)
    (h : (pyStripOn p l).head? = some c) : p c = false := by
  rcases pyStripOn_decomp p l with ⟨t, ht⟩
  cases hs : pyStripOn p l with
  | nil => rw [hs] at h; simp at h
  | cons a rest =>
    rw [hs] at h ht
    simp at h
    refine head?_dropWhile_false p l c ?_
    rw [ht]
    simp [h]

theorem pyStripOn_getLast (p : Char → Bool) (l : Str) (c : Char)
    (h : (pyStripOn p l).getLast? = some c) : p c = false := by
  have h2 : ((l.dropWhile p).reverse.dropWhile p).head? = some c := by
    rw [← List.getLast?_reverse]
    exact h
  exact head?_dropWhile_false p (l.dropWhile p).reverse c h2

theorem mem_pyStripOn {p : Char → Bool} {l : Str} {c : Char}
    (h : c ∈ pyStripOn p l) : c ∈ l := by
  unfold pyStripOn at h
  rw [List.mem_reverse] at h
  have h2 : c ∈ (l.dropWhile p).reverse := (List.dropWhile_suffix p).sublist.mem h
  rw [List.mem_reverse] at h2
  exact (List.dropWhile_suffix p).sublist.mem h2

theorem afterFirst_skip (p rest : Str) (hp : '{' ∉ p) :
    afterFirst (p ++ '{' :: rest) = some ('{' :: rest) := by
  induction p with
  | nil => simp [afterFirst]
  | cons c t ih =>
    have hc : ¬(c = '{') := fun hcc => hp (hcc ▸ List.mem_cons_self c t)
    have ht : '{' ∉ t := fun hm => hp (List.mem_cons_of_mem c hm)
    simp [afterFirst, hc, ih ht]

theorem upToLastClose_none (s : Str) (hs : '}' ∉ s) : upToLastClose s = none := by
  induction s with
  | nil => rfl
  | cons c t ih =>
    have hc : ¬(c = '}') := fun hcc => hs (hcc ▸ List.mem_cons_self c t)
    have ht : '}' ∉ t := fun hm => hs (List.mem_cons_of_mem c hm)
    simp [upToLastClose, ih ht, hc]

theorem upToLastClose_last (t s : Str) (hs : upToLastClose s = none) :
    upToLastClose (t ++ '}' :: s) = some (t ++ ['}']) := by
  induction t with
  | nil => simp [upToLastClose, hs]
  | cons c t' ih => simp [upToLastClose, ih]

theorem firstBraceGreedy_of_decomp (p mid s : Str) (hp : '{' ∉ p) (hs : '}' ∉ s) :
    firstBraceGreedy (p ++ ('{' :: mid ++ ['}']) ++ s) = some ('{' :: mid ++ ['}']) := by
  have h1 : afterFirst (p ++ ('{' :: mid ++ ['}']) ++ s)
      = some ('{' :: (mid ++ '}' :: s)) := by
    have := afterFirst_skip p (mid ++ '}' :: s) hp
    simpa [List.append_assoc] using this
  have h2 : upToLastClose (('{' :: mid) ++ '}' :: s) = some (('{' :: mid) ++ ['}']) :=
    upToLastClose_last ('{' :: mid) s (upToLastClose_none s hs)
  rw [firstBraceGreedy, h1]
  simpa using h2

theorem isPrefixOf_append_self (n b : Str) : n.isPrefixOf (n ++ b) = true := by
  induction n with
  | nil => simp [List.isPrefixOf]
  | cons c t ih => simp [List.isPrefixOf, ih]

theorem containsSub_self_append (n b : Str) : containsSub n (n ++ b) = true := by
  cases h : n ++ b with
  | nil =>
    have hn : n = [] := (List.append_eq_nil.mp h).1
    simp [containsSub, hn]
  | cons c t =>
    have hpre : n.isPrefixOf (c :: t) = true := h ▸ isPrefixOf_append_self n b
    simp [containsSub, hpre]

theorem containsSub_of_append (a n b : Str) : containsSub n (a ++ (n ++ b)) = true := by
  induction a with
  | nil => simpa using containsSub_self_append n b
  | cons c t ih => simp [containsSub, ih]

theorem lookupA_setAssoc_self {α : Type} (m : List (Str × α)) (k : Str) (v : α) :
    lookupA (setAssoc m k v) k = some v := by
  induction m with
  | nil => simp [setAssoc, lookupA]
  | cons kv rest ih =>
    by_cases h : kv.fst = k
    · simp [setAssoc, lookupA, h]
    · simp [setAssoc, lookupA, h, ih]

theorem lookupA_setAssoc_ne {α : Type} (m : List (Str × α)) (k k2 : Str) (v : α)
    (h : k ≠ k2) : lookupA (setAssoc m k v) k2 = lookupA m k2 := by
  induction m with
  | nil => simp [setAssoc, lookupA, h]
  | cons kv rest ih =>
    by_cases hk : kv.fst = k
    · simp [setAssoc, lookupA, hk, h, ih]
    · simp [setAssoc, lookupA, hk, h, ih]

theorem pathJoin_ne (d f1 f2 : Str) (h : f1 ≠ f2) : pathJoin d f1 ≠ pathJoin d f2 := by
  unfold pathJoin
  cases d with
  | nil => exact h
  | cons c t =>
    by_cases hl : (c :: t : Str).getLast? = some '/'
    · simp only [hl, if_pos]
      intro heq
      exact h (List.append_cancel_left heq)
    · simp only [hl, if_neg, not_false_iff]
      intro heq
      have := List.append_cancel_left heq
      simp at this
      exact h this

theorem batchRows_fst (env : Env) (outdir : Str) (urls : List Str) (w : World) :
    (batchRows env outdir urls w).fst = (urlRowSeqs env outdir urls w).flatten := by
  induction urls generalizing w with
  | nil => rfl
  | cons u rest ih => simp [batchRows, urlRowSeqs, ih]

/-! ### Claims -/

/-- C4, counterexample: the claim says every maximal run of non-alphanumeric
input characters is collapsed to a single separator, but `re.sub` replaces
each such character by its own underscore: on input `a??b` the output is
`a__b`, which contains two adjacent separators produced by one maximal run
of two non-alphanumeric characters. -/
theorem claim_C4_counterexample :
    url_to_filename ("a??b".data) = "a__b".data
    ∧ hasAdjSep (url_to_filename ("a??b".data)) = true := ⟨rfl, rfl⟩

/-- C4, amended: for every input URL string, `url_to_filename` returns a
string containing only alphanumeric characters and the separator, with each
non-alphanumeric input character replaced by its own separator (runs are not
collapsed), and with no leading or trailing separator. -/
theorem claim_C4_amended (url : Str) :
    (url_to_filename url).all (fun c => isAlnumA c || c == '_') = true
    ∧ sepFreeEdges (url_to_filename url) = true := by
  constructor
  · rw [List.all_eq_true]
    intro c hc
    have hc' : c ∈ pyStripOn (fun c => c == '_')
        (url.map (fun c => if isAlnumA c then c else '_')) := hc
    have hmem := mem_pyStripOn hc'
    rcases List.mem_map.mp hmem with ⟨x, _, hfx⟩
    by_cases hx : isAlnumA x = true
    · rw [if_pos hx] at hfx
      subst hfx
      simp [hx]
    · rw [if_neg hx] at hfx
      subst hfx
      simp
  · unfold sepFreeEdges
    cases h1 : (url_to_filename url).head? with
    | none =>
      cases h2 : (url_to_filename url).getLast? with
      | none => simp
      | some c => simp [pyStripOn_getLast (fun c => c == '_') _ c h2]
    | some c =>
      cases h2 : (url_to_filename url).getLast? with
      | none => simp [pyStripOn_head (fun c => c == '_') _ c h1]
      | some c2 =>
        simp [pyStripOn_head (fun c => c == '_') _ c h1,
          pyStripOn_getLast (fun c => c == '_') _ c2 h2]

/-- C7: `scrape_markdown` raises `ValueError("No markdown found in scraped
content.")` exactly when the backend result provides markdown in neither
accepted shape; when either shape provides markdown, that text is returned;
and a transport failure from the backend propagates unmodified (as the
backend's own exception, never this `ValueError`). -/
theorem claim_C7_page_fetch (env : Env) (url : Str) :
    (scrape_markdown env url = .error (.valueError noMarkdownMsg)
      ↔ env.scrape url = .ok .dictNoKey ∨ env.scrape url = .ok .other)
    ∧ (∀ md : Str, env.scrape url = .ok (.withAttr md) →
        scrape_markdown env url = .ok md)
    ∧ (∀ md : Str, env.scrape url = .ok (.dictWithKey md) →
        scrape_markdown env url = .ok md)
    ∧ (∀ t : Str, env.scrape url = .error t →
        scrape_markdown env url = .error (.external t)) := by
  cases h : env.scrape url with
  | error t => simp [scrape_markdown, h]
  | ok r => cases r <;> simp [scrape_markdown, h]

/-- Witness for C7 at three concrete backends: a dict lacking the markdown
key yields the `ValueError`, an object with the attribute yields its text,
and a transport failure passes through. -/
theorem claim_C7_page_fetch_witness :
    scrape_markdown envS1 urlA = .error (.valueError noMarkdownMsg)
    ∧ scrape_markdown envS2 urlA = .ok mdA
    ∧ scrape_markdown envS3 urlA = .error (.external netDownMsg) :=
  ⟨(claim_C7_page_fetch envS1 urlA).1.mpr (Or.inl rfl),
   (claim_C7_page_fetch envS2 urlA).2.1 mdA rfl,
   (claim_C7_page_fetch envS3 urlA).2.2.2 netDownMsg rfl⟩

/-- C2, counterexample: in `envC2` the fetch succeeds and the LLM response
validates into a `Listings` with zero items, so `process_url` returns the
empty row sequence - refuting "non-empty for every URL". -/
theorem claim_C2_counterexample : (process_url envC2 outDirC urlA w0).fst = [] := rfl

/-- C2, amended: `process_url` returns the URL's enriched rows on success or
exactly one ErrorRow on failure; the returned sequence is empty exactly when
the pipeline body succeeds with an empty item list (so non-emptiness holds in
every other case, but not universally). -/
theorem claim_C2_amended (env : Env) (outdir url : Str) (w : World) :
    (process_url env outdir url w).fst = []
      ↔ (processUrlBody env url
          (pathJoin outdir (url_to_filename url ++ mdExt))
          (pathJoin outdir (url_to_filename url ++ jsonExt))
          (pathJoin outdir (url_to_filename url ++ xlsxExt)) w).fst
        = .ok ([] : List JVal) := by
  cases hb : (processUrlBody env url
      (pathJoin outdir (url_to_filename url ++ mdExt))
      (pathJoin outdir (url_to_filename url ++ jsonExt))
      (pathJoin outdir (url_to_filename url ++ xlsxExt)) w).fst with
  | error e => simp [process_url, hb]
  | ok rows => simp [process_url, hb]

/-- C3: every exception raised inside the RawFetch / Extract / Reduce body of
`process_url` is caught at the pipeline boundary and turned into the
single-element sequence `[{url, product_description: ERROR, product_link:
str(e)}]`; on success the body's rows are returned unchanged.  In either case
`process_url` returns normally - no exception escapes the boundary. -/
theorem claim_C3_error_boundary (env : Env) (outdir url : Str) (w : World) :
    (∃ rows,
      (processUrlBody env url
        (pathJoin outdir (url_to_filename url ++ mdExt))
        (pathJoin outdir (url_to_filename url ++ jsonExt))
        (pathJoin outdir (url_to_filename url ++ xlsxExt)) w).fst = .ok rows
      ∧ process_url env outdir url w
        = (rows, (processUrlBody env url
            (pathJoin outdir (url_to_filename url ++ mdExt))
            (pathJoin outdir (url_to_filename url ++ jsonExt))
            (pathJoin outdir (url_to_filename url ++ xlsxExt)) w).snd))
    ∨ (∃ e,
      (processUrlBody env url
        (pathJoin outdir (url_to_filename url ++ mdExt))
        (pathJoin outdir (url_to_filename url ++ jsonExt))
        (pathJoin outdir (url_to_filename url ++ xlsxExt)) w).fst = .error e
      ∧ process_url env outdir url w
        = ([errorRow url e], (processUrlBody env url
            (pathJoin outdir (url_to_filename url ++ mdExt))
            (pathJoin outdir (url_to_filename url ++ jsonExt))
            (pathJoin outdir (url_to_filename url ++ xlsxExt)) w).snd)) := by
  cases hb : (processUrlBody env url
      (pathJoin outdir (url_to_filename url ++ mdExt))
      (pathJoin outdir (url_to_filename url ++ jsonExt))
      (pathJoin outdir (url_to_filename url ++ xlsxExt)) w).fst with
  | error e => exact Or.inr ⟨e, rfl, by simp [process_url, hb]⟩
  | ok rows => exact Or.inl ⟨rows, rfl, by simp [process_url, hb]⟩

/-- C5: whenever the stripped raw LLM response decomposes as brace-free
text around a single brace-delimited span that validates against the
schema, `extract_with_llm` succeeds on the first parse pass: it returns
the validated listing's dict after exactly one LLM invocation, with the
repair pass never invoked (the repair counter in the resulting world is
untouched). -/
theorem claim_C5_first_pass (env : Env) (w : World) (data content p mid s : Str)
    (l : Listings)
    (hllm : env.llm data = .ok content)
    (hdec : pyStrip content = p ++ ('{' :: mid ++ ['}']) ++ s)
    (hp : '{' ∉ p) (hs : '}' ∉ s)
    (hparse : env.parse ('{' :: mid ++ ['}']) = .ok l) :
    extract_with_llm env data w = (.ok (Listings.toDict l), bumpLlm w) := by
  have hfb : firstBraceGreedy (pyStrip content) = some ('{' :: mid ++ ['}']) := by
    rw [hdec]
    exact firstBraceGreedy_of_decomp p mid s hp hs
  simp only [extract_with_llm, hllm]
  have hpp : primaryParse env (pyStrip content) = .ok (Listings.toDict l) := by
    simp only [primaryParse, hfb]
    rw [hparse]
  rw [hpp]

/-- Witness for C5: a response that is exactly one brace span parses on
the first pass, with one LLM call and no repair. -/
theorem claim_C5_first_pass_witness :
    extract_with_llm envC1 mdA w0 = (.ok (Listings.toDict listingA), bumpLlm w0) :=
  claim_C5_first_pass envC1 w0 mdA respA [] ['x'] [] listingA rfl rfl
    (by simp) (by simp) rfl

/-- C6, counterexample: the claim says the final error carries the original
first-parse failure, the repair failure and the raw output; in `envC6` the
primary pass fails with the `AttributeError` from `.group()` on `None`, the
repair pass fails too, and the raised `ValueError`'s message contains the
repair failure and the raw output but not the original failure's text - the
original failure is not carried. -/
theorem claim_C6_counterexample :
    primaryParse envC6 (pyStrip rawC6) = .error (.attrError attrGroupMsg)
    ∧ (extract_with_llm envC6 dataC6 w0).fst = .error (.valueError msgC6)
    ∧ containsSub attrGroupMsg msgC6 = false
    ∧ containsSub fixErrMsgC6 msgC6 = true
    ∧ containsSub rawC6 msgC6 = true := ⟨rfl, rfl, rfl, rfl, rfl⟩

/-- C6, amended: when both the primary parse and the repair pass fail,
`extract_with_llm` raises a `ValueError` whose message interpolates the
repair failure and the full raw output (the original first-parse failure is
only printed, not carried in the raised error). -/
theorem claim_C6_amended (env : Env) (w : World) (data content : Str) (e1 e2 : PyErr)
    (hllm : env.llm data = .ok content)
    (hpp : primaryParse env (pyStrip content) = .error e1)
    (hfix : env.fixParse (pyStrip content) = .error e2) :
    extract_with_llm env data w
      = (.error (.valueError (extractFailMsg e2 (pyStrip content))),
          bumpRepair (bumpLlm w))
    ∧ containsSub (pyStr e2) (extractFailMsg e2 (pyStrip content)) = true
    ∧ containsSub (pyStrip content) (extractFailMsg e2 (pyStrip content)) = true := by
  refine ⟨?_, ?_, ?_⟩
  · simp [extract_with_llm, hllm, hpp, hfix]
  · exact containsSub_of_append failPre (pyStr e2) (failMid ++ pyStrip content)
  · have h := containsSub_of_append (failPre ++ (pyStr e2 ++ failMid)) (pyStrip content) []
    simpa [extractFailMsg, List.append_assoc] using h

/-- Witness for C6 (amended) at the concrete double-failure environment. -/
theorem claim_C6_amended_witness :
    extract_with_llm envC6 dataC6 w0
      = (.error (.valueError (extractFailMsg (.valueError fixErrMsgC6) (pyStrip rawC6))),
          bumpRepair (bumpLlm w0))
    ∧ containsSub (pyStr (.valueError fixErrMsgC6))
        (extractFailMsg (.valueError fixErrMsgC6) (pyStrip rawC6)) = true
    ∧ containsSub (pyStrip rawC6)
        (extractFailMsg (.valueError fixErrMsgC6) (pyStrip rawC6)) = true :=
  claim_C6_amended envC6 w0 dataC6 rawC6 (.attrError attrGroupMsg)
    (.valueError fixErrMsgC6) rfl rfl rfl

/-- C1 (exhibiting the key-mismatch bug): in the scenario where URL A
fetches and extracts a two-record listing and URL B's fetch throws, the
summary does NOT contain two enriched rows for A.  Extraction for A
succeeds - the URL-stamped two-record structured data is written to
`output/A.json` - but the Reduce stage reads the key
`product_description`, which the schema (whose field is `product_name`)
never produces, so A's pipeline dies with `KeyError('product_description')`
and contributes one ErrorRow.  The summary holds exactly two rows, both
ERROR rows, instead of the three rows the claim describes. -/
theorem claim_C1_end_to_end :
    lookupA (run_batch envC1 [urlA, urlB] outDirC sumPathC w0).fs sumPathC
      = some (.xlsxF [errorRow urlA (.keyError descKey),
                      errorRow urlB (.external netDownMsg)])
    ∧ lookupA (run_batch envC1 [urlA, urlB] outDirC sumPathC w0).fs
        ("output/A.json".data)
      = some (.jsonF stampedA) := ⟨rfl, rfl⟩

/-- C8: when both cache artifacts for a URL already exist, re-running
`process_url` leaves the world completely unchanged - no fetch, no LLM
call, no repair call, no write - so the structured artifact on disk is
byte-identical to what the first run left there. -/
theorem claim_C8_cache_idempotence (env : Env) (outdir url : Str) (w : World)
    (m : Str) (v : JVal)
    (h1 : lookupA w.fs (pathJoin outdir (url_to_filename url ++ mdExt))
      = some (.text m))
    (h2 : lookupA w.fs (pathJoin outdir (url_to_filename url ++ jsonExt))
      = some (.jsonF v)) :
    (process_url env outdir url w).snd = w
    ∧ lookupA (process_url env outdir url w).snd.fs
        (pathJoin outdir (url_to_filename url ++ jsonExt)) = some (.jsonF v) := by
  have hb : processUrlBody env url
      (pathJoin outdir (url_to_filename url ++ mdExt))
      (pathJoin outdir (url_to_filename url ++ jsonExt))
      (pathJoin outdir (url_to_filename url ++ xlsxExt)) w
      = (reduceStage v, w) := by
    simp [processUrlBody, h1, h2, readText, readJson]
  have hsnd : (process_url env outdir url w).snd = w := by
    cases hr : reduceStage v with
    | ok rows => simp [process_url, hb, hr]
    | error e => simp [process_url, hb, hr]
  exact ⟨hsnd, by rw [hsnd]; exact h2⟩

/-- Witness for C8: with both of A's artifacts cached, `process_url` leaves
the world untouched even under a backend whose transport always fails -
showing the backends are never consulted. -/
theorem claim_C8_cache_idempotence_witness :
    (process_url envS3 outDirC urlA wCached).snd = wCached
    ∧ lookupA (process_url envS3 outDirC urlA wCached).snd.fs
        (pathJoin outDirC (url_to_filename urlA ++ jsonExt))
      = some (.jsonF cachedV) :=
  claim_C8_cache_idempotence envS3 outDirC urlA wCached mdA cachedV rfl rfl

/-- C10: when the structured-data artifact exists but the raw-text artifact
does not, `process_url` still fetches the URL (one new fetch call) and
writes the raw-text artifact, while the structured data is read from cache
(no LLM call) - the two cache checks are independent. -/
theorem claim_C10_fetch_despite_json (env : Env) (outdir url : Str) (w : World)
    (md : Str) (v : JVal)
    (h1 : lookupA w.fs (pathJoin outdir (url_to_filename url ++ mdExt)) = none)
    (h2 : lookupA w.fs (pathJoin outdir (url_to_filename url ++ jsonExt))
      = some (.jsonF v))
    (h3 : scrape_markdown env url = .ok md) :
    (process_url env outdir url w).snd
      = writeFile (bumpFetch w)
          (pathJoin outdir (url_to_filename url ++ mdExt)) (.text md)
    ∧ lookupA (process_url env outdir url w).snd.fs
        (pathJoin outdir (url_to_filename url ++ mdExt)) = some (.text md)
    ∧ (process_url env outdir url w).snd.fetchCalls = w.fetchCalls + 1
    ∧ (process_url env outdir url w).snd.llmCalls = w.llmCalls := by
  have hne : pathJoin outdir (url_to_filename url ++ mdExt)
      ≠ pathJoin outdir (url_to_filename url ++ jsonExt) := by
    apply pathJoin_ne
    intro heq
    have hc := List.append_cancel_left heq
    exact absurd hc (by decide)
  have hlk : lookupA (writeFile (bumpFetch w)
      (pathJoin outdir (url_to_filename url ++ mdExt)) (.text md)).fs
      (pathJoin outdir (url_to_filename url ++ jsonExt)) = some (.jsonF v) := by
    simp only [writeFile, bumpFetch]
    rw [lookupA_setAssoc_ne _ _ _ _ hne]
    exact h2
  have hb : processUrlBody env url
      (pathJoin outdir (url_to_filename url ++ mdExt))
      (pathJoin outdir (url_to_filename url ++ jsonExt))
      (pathJoin outdir (url_to_filename url ++ xlsxExt)) w
      = (reduceStage v, writeFile (bumpFetch w)
          (pathJoin outdir (url_to_filename url ++ mdExt)) (.text md)) := by
    simp [processUrlBody, h1, h3, hlk, readJson]
  have hsnd : (process_url env outdir url w).snd
      = writeFile (bumpFetch w)
          (pathJoin outdir (url_to_filename url ++ mdExt)) (.text md) := by
    cases hr : reduceStage v with
    | ok rows => simp [process_url, hb, hr]
    | error e => simp [process_url, hb, hr]
  refine ⟨hsnd, ?_, ?_, ?_⟩
  · rw [hsnd]
    simp [writeFile, lookupA_setAssoc_self]
  · rw [hsnd]; rfl
  · rw [hsnd]; rfl

/-- Witness for C10: URL A's structured artifact is cached but its raw
artifact is missing; `process_url` fetches, writes the markdown, and makes
no LLM call. -/
theorem claim_C10_fetch_despite_json_witness :
    (process_url envS2 outDirC urlA wNoRaw).snd
      = writeFile (bumpFetch wNoRaw)
          (pathJoin outDirC (url_to_filename urlA ++ mdExt)) (.text mdA)
    ∧ lookupA (process_url envS2 outDirC urlA wNoRaw).snd.fs
        (pathJoin outDirC (url_to_filename urlA ++ mdExt)) = some (.text mdA)
    ∧ (process_url envS2 outDirC urlA wNoRaw).snd.fetchCalls
      = wNoRaw.fetchCalls + 1
    ∧ (process_url envS2 outDirC urlA wNoRaw).snd.llmCalls = wNoRaw.llmCalls :=
  claim_C10_fetch_despite_json envS2 outDirC urlA wNoRaw mdA cachedV rfl rfl rfl

/-- C9: `run_batch` always writes the summary artifact at the summary path
(overwriting whatever was there, for any starting filesystem), and its row
sequence is exactly the concatenation of the per-URL row sequences in input
URL order, each URL processed strictly after its predecessor (the world each
URL sees is the one its predecessor left, as `urlRowSeqs` threads it). -/
theorem claim_C9_batch_summary (env : Env) (urls : List Str)
    (outdir sumPath : Str) (w : World) :
    lookupA (run_batch env urls outdir sumPath w).fs sumPath
      = some (.xlsxF ((urlRowSeqs env outdir urls w).flatten)) := by
  simp [run_batch, writeFile, lookupA_setAssoc_self, batchRows_fst]
